import Mathlib

/-!
# Verification of the recipe export tool

A shallow embedding of the recipe export program (its source file is
`src/download.js`) together with proofs about it.  Strings are modelled as
lists of characters, JavaScript numbers as rationals, timestamps as integer
seconds since the epoch, and the optional / falsy behaviour of JavaScript
fields by an explicit value type with a truthiness predicate.  The rendered
PDF document is modelled as the ordered list of sections the renderer emits,
and the batch orchestrator as a function from its configuration, its
collaborator oracles (image fetching, per-recipe faults) and the initial
state of the output directory to a structured run outcome.
-/

/-- Strings are modelled as lists of characters, matching JavaScript strings
viewed as sequences of characters. -/
abbrev Str := List Char

/-- Whitespace test used by the JavaScript string trim operation. -/
def isSpaceChar (c : Char) : Bool := c.isWhitespace

/-- Model of the JavaScript trim method on strings: drop whitespace from both
ends of the string. -/
def jsTrim (s : Str) : Str :=
  ((s.dropWhile isSpaceChar).reverse.dropWhile isSpaceChar).reverse

/-- The characters that the filename sanitizer replaces (source line 10):
slash, backslash, question mark, percent, star, colon, pipe, double quote,
less-than and greater-than. -/
def isBannedChar (c : Char) : Bool :=
  (c == '/') || (c == '\\') || (c == '?') || (c == '%') || (c == '*') ||
  (c == ':') || (c == '|') || (c == '"') || (c == '<') || (c == '>')

/-- The character replacement performed by the sanitizer: banned characters
become a dash, everything else is kept. -/
def bannedToDash (c : Char) : Char := if isBannedChar c then '-' else c

/-- Embedding of the function sanitizeFilename (source lines 9-11): replace
every banned character with a dash, then trim surrounding whitespace. -/
def sanitizeFilename (s : Str) : Str := jsTrim (s.map bannedToDash)

/-! ## Generic list lemmas used for the trim function -/

theorem dropWhile_dropWhile {α : Type} (p : α → Bool) (l : List α) :
    (l.dropWhile p).dropWhile p = l.dropWhile p := by
  induction l with
  | nil => rfl
  | cons a t ih =>
    by_cases h : p a
    · simp [List.dropWhile_cons, h, ih]
    · simp [List.dropWhile_cons, h]

theorem head?_dropWhile_not {α : Type} (p : α → Bool) (l : List α) (a : α)
    (h : (l.dropWhile p).head? = some a) : p a = false := by
  induction l with
  | nil => simp at h
  | cons b t ih =>
    by_cases hb : p b
    · rw [List.dropWhile_cons] at h
      simp [hb] at h
      exact ih h
    · rw [List.dropWhile_cons] at h
      simp [hb] at h
      rw [← h]
      simpa using hb

theorem getLast?_dropWhile {α : Type} (p : α → Bool) (w : List α)
    (h : w.dropWhile p ≠ []) : (w.dropWhile p).getLast? = w.getLast? := by
  induction w with
  | nil => simp at h
  | cons a t ih =>
    by_cases hp : p a
    · rw [List.dropWhile_cons] at h ⊢
      simp only [hp, if_true] at h ⊢
      have ht : t ≠ [] := by
        intro e
        subst e
        simp at h
      rw [ih h]
      cases t with
      | nil => exact absurd rfl ht
      | cons b u => rfl
    · rw [List.dropWhile_cons]
      simp [hp]

/-- The left trim of an already trimmed string does nothing. -/
theorem dropWhile_jsTrim (s : Str) :
    (jsTrim s).dropWhile isSpaceChar = jsTrim s := by
  unfold jsTrim
  cases hB : ((s.dropWhile isSpaceChar).reverse.dropWhile isSpaceChar).reverse with
  | nil => simp
  | cons a t =>
    have hne : (s.dropWhile isSpaceChar).reverse.dropWhile isSpaceChar ≠ [] := by
      intro e
      rw [e] at hB
      simp at hB
    have hlast : ((s.dropWhile isSpaceChar).reverse.dropWhile isSpaceChar).getLast? =
        (s.dropWhile isSpaceChar).head? := by
      rw [getLast?_dropWhile _ _ hne, List.getLast?_reverse]
    have hhead : ((s.dropWhile isSpaceChar).reverse.dropWhile isSpaceChar).reverse.head? =
        some a := by
      rw [hB]
      rfl
    rw [List.head?_reverse, hlast] at hhead
    have hpa : isSpaceChar a = false := head?_dropWhile_not _ _ _ hhead
    rw [← hB, hB, List.dropWhile_cons, hpa]
    simp

/-- Trimming is idempotent. -/
theorem jsTrim_jsTrim (s : Str) : jsTrim (jsTrim s) = jsTrim s := by
  conv_lhs => rw [jsTrim]
  rw [dropWhile_jsTrim]
  conv_lhs => rw [jsTrim]
  rw [List.reverse_reverse, dropWhile_dropWhile]
  rw [← jsTrim]

/-- Every character of the sanitized string is a character of the replaced
string (trimming only removes characters). -/
theorem mem_of_mem_sanitize (s : Str) (c : Char) (h : c ∈ sanitizeFilename s) :
    c ∈ s.map bannedToDash := by
  unfold sanitizeFilename jsTrim at h
  rw [List.mem_reverse] at h
  have h1 := (List.dropWhile_sublist (l := (List.map bannedToDash s).dropWhile isSpaceChar |>.reverse) isSpaceChar).mem h
  rw [List.mem_reverse] at h1
  exact (List.dropWhile_sublist isSpaceChar).mem h1

/-- The replacement map never outputs a banned character. -/
theorem isBannedChar_bannedToDash (c : Char) : isBannedChar (bannedToDash c) = false := by
  unfold bannedToDash
  by_cases h : isBannedChar c
  · simp [h]
    decide
  · simp [h]

/-- C8: sanitizeFilename is idempotent, and its output contains none of the
banned characters, in particular no path separator (slash or backslash). -/
theorem sanitizeFilename_spec (x : Str) :
    sanitizeFilename (sanitizeFilename x) = sanitizeFilename x ∧
    ∀ c ∈ sanitizeFilename x, isBannedChar c = false ∧ c ≠ '/' ∧ c ≠ '\\' := by
  have hban : ∀ c ∈ sanitizeFilename x, isBannedChar c = false := by
    intro c hc
    obtain ⟨b, _, hb⟩ := List.mem_map.mp (mem_of_mem_sanitize x c hc)
    rw [← hb]
    exact isBannedChar_bannedToDash b
  constructor
  · have hmap : (sanitizeFilename x).map bannedToDash = sanitizeFilename x := by
      have : ∀ c ∈ sanitizeFilename x, bannedToDash c = c := by
        intro c hc
        unfold bannedToDash
        simp [hban c hc]
      calc (sanitizeFilename x).map bannedToDash
        = (sanitizeFilename x).map id := List.map_congr_left this
        _ = sanitizeFilename x := List.map_id _
    calc sanitizeFilename (sanitizeFilename x)
        = jsTrim ((sanitizeFilename x).map bannedToDash) := rfl
      _ = jsTrim (sanitizeFilename x) := by rw [hmap]
      _ = jsTrim (jsTrim (x.map bannedToDash)) := rfl
      _ = jsTrim (x.map bannedToDash) := jsTrim_jsTrim _
      _ = sanitizeFilename x := rfl
  · intro c hc
    refine ⟨hban c hc, ?_, ?_⟩
    · intro e
      subst e
      have := hban _ hc
      simp [isBannedChar] at this
    · intro e
      subst e
      have := hban _ hc
      simp [isBannedChar] at this

/-- Witness for C8 at a concrete input: the string space a slash b sanitizes
to a dash form, idempotently, and its member character a is unbanned. -/
theorem sanitizeFilename_spec_witness :
    sanitizeFilename (sanitizeFilename [' ', 'a', '/', 'b']) =
      sanitizeFilename [' ', 'a', '/', 'b'] ∧
    (isBannedChar 'a' = false ∧ 'a' ≠ '/' ∧ 'a' ≠ '\\') :=
  ⟨(sanitizeFilename_spec [' ', 'a', '/', 'b']).1,
   (sanitizeFilename_spec [' ', 'a', '/', 'b']).2 'a' (by decide)⟩

/-! ## Date formatting (source lines 14-32) -/

/-- The decimal digit character for a value below ten. -/
def digitChar (n : Nat) : Char :=
  if n = 0 then '0' else if n = 1 then '1' else if n = 2 then '2'
  else if n = 3 then '3' else if n = 4 then '4' else if n = 5 then '5'
  else if n = 6 then '6' else if n = 7 then '7' else if n = 8 then '8' else '9'

/-- Fuel driven decimal rendering helper; the fuel bounds the number of
digits, so structural recursion suffices and the definition evaluates. -/
def natCharsAux : Nat → Nat → Str
  | 0, _ => []
  | fuel + 1, n =>
    if n < 10 then [digitChar n]
    else natCharsAux fuel (n / 10) ++ [digitChar (n % 10)]

/-- Decimal rendering of a natural number, most significant digit first. -/
def natChars (n : Nat) : Str := natCharsAux (n + 1) n

/-- Two digit zero padded rendering, as the month and day fields of the
locale date string in two digit style. -/
def pad2 (n : Nat) : Str := if n < 10 then '0' :: natChars n else natChars n

/-- The long month name used by the display form of the date. -/
def monthLong : Nat → Str
  | 1 => ['J', 'a', 'n', 'u', 'a', 'r', 'y']
  | 2 => ['F', 'e', 'b', 'r', 'u', 'a', 'r', 'y']
  | 3 => ['M', 'a', 'r', 'c', 'h']
  | 4 => ['A', 'p', 'r', 'i', 'l']
  | 5 => ['M', 'a', 'y']
  | 6 => ['J', 'u', 'n', 'e']
  | 7 => ['J', 'u', 'l', 'y']
  | 8 => ['A', 'u', 'g', 'u', 's', 't']
  | 9 => ['S', 'e', 'p', 't', 'e', 'm', 'b', 'e', 'r']
  | 10 => ['O', 'c', 't', 'o', 'b', 'e', 'r']
  | 11 => ['N', 'o', 'v', 'e', 'm', 'b', 'e', 'r']
  | 12 => ['D', 'e', 'c', 'e', 'm', 'b', 'e', 'r']
  | _ => []

/-- A calendar date: year, month (1 to 12) and day of month (1 to 31). -/
structure DateParts where
  year : Int
  month : Nat
  day : Nat
deriving DecidableEq

/-- The proleptic Gregorian calendar date of a day count from the epoch
(1970-01-01 is day zero); the standard civil-from-days algorithm.  This
models what the JavaScript Date object computes from a millisecond
timestamp. -/
def civilFromDays (z0 : Int) : DateParts :=
  let z : Int := z0 + 719468
  let era : Int := Int.fdiv z 146097
  let doe : Nat := (z - era * 146097).toNat
  let yoe : Nat := (doe - doe / 1460 + doe / 36524 - doe / 146096) / 365
  let y : Int := (yoe : Int) + era * 400
  let doy : Nat := doe - (365 * yoe + yoe / 4 - yoe / 100)
  let mp : Nat := (5 * doy + 2) / 153
  let d : Nat := doy - (153 * mp + 2) / 5 + 1
  let m : Nat := if mp < 10 then mp + 3 else mp - 9
  { year := if m ≤ 2 then y + 1 else y, month := m, day := d }

/-- The calendar date of a Unix timestamp in seconds, as the source computes
with new Date of the timestamp times 1000 (taking the UTC reading of the
resulting instant). -/
def dateOfTimestamp (t : Int) : DateParts := civilFromDays (Int.fdiv t 86400)

/-- The two formatted representations returned by formatDate: fileName is the
filename token and display the human readable text (source lines 16-31). -/
structure FormattedDate where
  fileName : Str
  display : Str
deriving DecidableEq

/-- The global replacement of slashes by dashes applied to the locale date
string (source line 23). -/
def replaceSlash (s : Str) : Str :=
  s.map fun c => if c = '/' then '-' else c

/-- Embedding of formatDate (source lines 14-32).  The two digit locale
string month slash day slash year is built and its slashes replaced by
dashes for the filename; the display uses the long month name, the unpadded
day, a comma, and the year.  Years before 2000 collapse to the sentinel
values: the empty filename token and the display text Unknown. -/
def formatDate (t : Int) : FormattedDate :=
  let d := dateOfTimestamp t
  { fileName :=
      if d.year < 2000 then []
      else replaceSlash (pad2 d.month ++ '/' :: pad2 d.day ++ '/' :: natChars d.year.toNat)
  , display :=
      if d.year < 2000 then ['U', 'n', 'k', 'n', 'o', 'w', 'n']
      else monthLong d.month ++ ' ' :: natChars d.day ++ ',' :: ' ' :: natChars d.year.toNat }

/-! ## Digit strings contain no slash -/

theorem digitChar_ne_slash (n : Nat) : digitChar n ≠ '/' := by
  unfold digitChar
  repeat' split
  all_goals decide

theorem natCharsAux_ne_slash (fuel : Nat) :
    ∀ n, ∀ c ∈ natCharsAux fuel n, c ≠ '/' := by
  induction fuel with
  | zero =>
    intro n c hc
    simp [natCharsAux] at hc
  | succ fuel ih =>
    intro n c hc
    rw [natCharsAux] at hc
    split at hc
    · rw [List.mem_singleton] at hc
      rw [hc]
      exact digitChar_ne_slash n
    · rw [List.mem_append] at hc
      rcases hc with hc | hc
      · exact ih (n / 10) c hc
      · rw [List.mem_singleton] at hc
        rw [hc]
        exact digitChar_ne_slash (n % 10)

theorem natChars_ne_slash (n : Nat) : ∀ c ∈ natChars n, c ≠ '/' :=
  natCharsAux_ne_slash (n + 1) n

theorem pad2_ne_slash (n : Nat) : ∀ c ∈ pad2 n, c ≠ '/' := by
  unfold pad2
  split
  · intro c hc
    rw [List.mem_cons] at hc
    rcases hc with hc | hc
    · rw [hc]; decide
    · exact natChars_ne_slash n c hc
  · exact natChars_ne_slash n

theorem replaceSlash_of_no_slash (s : Str) (h : ∀ c ∈ s, c ≠ '/') :
    replaceSlash s = s := by
  unfold replaceSlash
  calc s.map (fun c => if c = '/' then '-' else c)
      = s.map id := List.map_congr_left (by intro a ha; simp [h a ha])
    _ = s := List.map_id _

theorem replaceSlash_append (a b : Str) :
    replaceSlash (a ++ b) = replaceSlash a ++ replaceSlash b :=
  List.map_append _ a b

theorem replaceSlash_cons_slash (b : Str) :
    replaceSlash ('/' :: b) = '-' :: replaceSlash b := by
  simp [replaceSlash]

/-- C5: for every timestamp, when the computed calendar year is before 2000
the formatted date is the empty filename token and the display text Unknown;
otherwise the filename token is the zero padded, dash separated month, day,
year form and the display is the long month name, unpadded day, comma,
year form. -/
theorem formatDate_spec (t : Int) :
    ((dateOfTimestamp t).year < 2000 →
      formatDate t = ⟨[], ['U', 'n', 'k', 'n', 'o', 'w', 'n']⟩) ∧
    (2000 ≤ (dateOfTimestamp t).year →
      (formatDate t).fileName =
        pad2 (dateOfTimestamp t).month ++ '-' :: pad2 (dateOfTimestamp t).day ++
          '-' :: natChars (dateOfTimestamp t).year.toNat ∧
      (formatDate t).display =
        monthLong (dateOfTimestamp t).month ++ ' ' :: natChars (dateOfTimestamp t).day ++
          ',' :: ' ' :: natChars (dateOfTimestamp t).year.toNat) := by
  constructor
  · intro h
    unfold formatDate
    simp only [if_pos h]
  · intro h
    have hlt : ¬ (dateOfTimestamp t).year < 2000 := by omega
    constructor
    · show (if (dateOfTimestamp t).year < 2000 then [] else
        replaceSlash (pad2 (dateOfTimestamp t).month ++ '/' :: pad2 (dateOfTimestamp t).day ++
          '/' :: natChars (dateOfTimestamp t).year.toNat)) = _
      rw [if_neg hlt]
      rw [replaceSlash_append, replaceSlash_cons_slash, replaceSlash_append,
        replaceSlash_cons_slash]
      rw [replaceSlash_of_no_slash _ (pad2_ne_slash _),
        replaceSlash_of_no_slash _ (pad2_ne_slash _),
        replaceSlash_of_no_slash _ (natChars_ne_slash _)]
    · show (if (dateOfTimestamp t).year < 2000 then ['U', 'n', 'k', 'n', 'o', 'w', 'n'] else
        monthLong (dateOfTimestamp t).month ++ ' ' :: natChars (dateOfTimestamp t).day ++
          ',' :: ' ' :: natChars (dateOfTimestamp t).year.toNat) = _
      rw [if_neg hlt]

/-- Witness for C5 at two concrete timestamps: zero (1970, before 2000, the
sentinel pair) and the first second of 2026 (the padded dashed token). -/
theorem formatDate_spec_witness :
    formatDate 0 = ⟨[], ['U', 'n', 'k', 'n', 'o', 'w', 'n']⟩ ∧
    (formatDate 1767225600).fileName =
      ['0', '1', '-', '0', '1', '-', '2', '0', '2', '6'] ∧
    (formatDate 1767225600).display =
      ['J', 'a', 'n', 'u', 'a', 'r', 'y', ' ', '1', ',', ' ', '2', '0', '2', '6'] := by
  refine ⟨(formatDate_spec 0).1 (by decide), ?_, ?_⟩
  · have h := ((formatDate_spec 1767225600).2 (by decide)).1
    rw [h]
    decide
  · have h := ((formatDate_spec 1767225600).2 (by decide)).2
    rw [h]
    decide

/-! ## Image scaling (source lines 125-141) -/

/-- The bounding box constant used for recipe photos, in layout units. -/
def maxImageSide : ℚ := 200

/-- Embedding of the image scaling computation (source lines 130-132): the
scale factor is the minimum of the two bound over dimension quotients and the
placed size is the intrinsic size multiplied by that factor. -/
def imagePlacedSize (w h : ℚ) : ℚ × ℚ :=
  let scale := min (maxImageSide / w) (maxImageSide / h)
  (w * scale, h * scale)

/-- C6: the placed size is exactly the intrinsic size times the minimum of
the bound quotients, and since no clamp at one is applied, a scale above one
strictly enlarges both dimensions (small images are upscaled). -/
theorem imagePlacedSize_spec (w h : ℚ) (hw : 0 < w) (hh : 0 < h) :
    imagePlacedSize w h =
      (w * min (200 / w) (200 / h), h * min (200 / w) (200 / h)) ∧
    (1 < min (200 / w) (200 / h) →
      w < (imagePlacedSize w h).1 ∧ h < (imagePlacedSize w h).2) := by
  constructor
  · rfl
  · intro hlt
    constructor
    · show w < w * min (200 / w) (200 / h)
      exact (lt_mul_iff_one_lt_right hw).mpr hlt
    · show h < h * min (200 / w) (200 / h)
      exact (lt_mul_iff_one_lt_right hh).mpr hlt

/-- Witness for C6 at a concrete small image: a 50 by 100 image has scale
two, above one, and is upscaled to 100 by 200. -/
theorem imagePlacedSize_spec_witness :
    imagePlacedSize 50 100 = (50 * min (200 / 50) (200 / 100), 100 * min (200 / 50) (200 / 100)) ∧
    (50 : ℚ) < (imagePlacedSize 50 100).1 ∧ (100 : ℚ) < (imagePlacedSize 50 100).2 :=
  ⟨(imagePlacedSize_spec 50 100 (by norm_num) (by norm_num)).1,
   (imagePlacedSize_spec 50 100 (by norm_num) (by norm_num)).2 (by norm_num)⟩

/-! ## The recipe data model with JavaScript truthiness -/

/-- A JavaScript field value as the renderer inspects it: absent (undefined),
a number, or a string.  Zero and the empty string are falsy. -/
inductive JSVal where
  | undefined : JSVal
  | num : ℚ → JSVal
  | text : Str → JSVal
deriving DecidableEq

/-- JavaScript truthiness of a field value: undefined, the number zero and
the empty string are falsy, everything else is truthy. -/
def JSVal.truthy : JSVal → Bool
  | .undefined => false
  | .num q => q != 0
  | .text s => s != []

/-- The string content of a field value, for fields used as strings. -/
def JSVal.asStr : JSVal → Str
  | .undefined => []
  | .num _ => []
  | .text s => s

/-- The numeric content of a field value, for fields used as numbers. -/
def JSVal.asNum : JSVal → ℚ
  | .num q => q
  | _ => 0

/-- The JavaScript or operator on field values: the left value when it is
truthy, the right value otherwise. -/
def JSVal.orElse (a b : JSVal) : JSVal := if a.truthy then a else b

/-- A recipe record as consumed by the renderer.  Sequence valued fields
merge the absent and the empty case, which the source treats alike (the
guards are conjunctions of presence and positive length). -/
structure Recipe where
  name : Str := []
  creationTimestamp : Int := 0
  photoIds : List Str := []
  sourceName : JSVal := .undefined
  sourceUrl : JSVal := .undefined
  servings : JSVal := .undefined
  rating : JSVal := .undefined
  prepTime : JSVal := .undefined
  cookTime : JSVal := .undefined
  categories : List Str := []
  notes : JSVal := .undefined
  note : JSVal := .undefined
  ingredients : List Str := []
  instructions : JSVal := .undefined
  preparationSteps : List Str := []
  nutritionalInfo : JSVal := .undefined
deriving DecidableEq

/-! ## The rendered document model -/

/-- One line of the preparation steps block: either an un-numbered bold
heading (a hash entry with the hash stripped), or a numbered step whose
number is rendered bold followed by the regular trimmed text. -/
inductive StepLine where
  | heading : Str → StepLine
  | numbered : Nat → Str → StepLine
deriving DecidableEq

/-- One entry of the prep and cook time line. -/
inductive TimeEntry where
  | prep : ℚ → TimeEntry
  | cook : ℚ → TimeEntry
deriving DecidableEq

/-- The form of the source section (source lines 157-189): a linked source
name when both name and url are truthy, otherwise each present part alone. -/
inductive SourceLine where
  | linked : Str → Str → SourceLine
  | nameOnly : Str → SourceLine
  | urlOnly : Str → SourceLine
deriving DecidableEq

/-- One section of the rendered document, in emission order.  The payload of
each constructor records the content the source writes for that section. -/
inductive Sect where
  | title : Str → Sect
  | image : ℚ → ℚ → Sect
  | created : Str → Bool → Sect
  | source : SourceLine → Sect
  | servings : JSVal → Sect
  | rating : Option JSVal → Sect
  | times : List TimeEntry → Sect
  | categories : List Str → Sect
  | notes : Str → Sect
  | ingredients : List Str → Sect
  | instructions : List (Nat × Str) → Sect
  | prepSteps : List StepLine → Sect
  | nutrition : List Str → Sect
deriving DecidableEq

/-- The kind of a section, used to select the sections of one family from a
document. -/
inductive SKind where
  | title | image | created | source | servings | rating | times
  | categories | notes | ingredients | instructions | prepSteps | nutrition
deriving DecidableEq

/-- The kind of each section constructor. -/
def Sect.kind : Sect → SKind
  | .title _ => .title
  | .image _ _ => .image
  | .created _ _ => .created
  | .source _ => .source
  | .servings _ => .servings
  | .rating _ => .rating
  | .times _ => .times
  | .categories _ => .categories
  | .notes _ => .notes
  | .ingredients _ => .ingredients
  | .instructions _ => .instructions
  | .prepSteps _ => .prepSteps
  | .nutrition _ => .nutrition

/-- The sections of one kind in a document, in document order. -/
def sectsOfKind (k : SKind) (doc : List Sect) : List Sect :=
  doc.filter fun s => decide (s.kind = k)

/-! ## The per-recipe renderer (source lines 90-308) -/

/-- The photo url derived from a photo identifier (source line 121). -/
def photoUrl (pid : Str) : Str :=
  ['h', 't', 't', 'p', 's', ':', '/', '/', 'p', 'h', 'o', 't', 'o', 's', '.',
   'a', 'n', 'y', 'l', 'i', 's', 't', '.', 'c', 'o', 'm', '/'] ++ pid ++
  ['.', 'j', 'p', 'g']

/-- The title section (source line 115), always present. -/
def titleSect (r : Recipe) : List Sect := [.title r.name]

/-- The image section (source lines 119-148): present when the recipe has a
photo id and the fetch and decode oracle succeeds on its url; the placed
size applies the minimum-quotient scale.  A fetch failure only skips the
section. -/
def imageSect (imgRes : Str → Option (ℚ × ℚ)) (r : Recipe) : List Sect :=
  match r.photoIds with
  | [] => []
  | pid :: _ =>
    match imgRes (photoUrl pid) with
    | some (w, h) => [.image (imagePlacedSize w h).1 (imagePlacedSize w h).2]
    | none => []

/-- The created date section (source lines 151-154), always present; the
value is styled oblique exactly when the year is before 2000. -/
def createdSect (r : Recipe) : List Sect :=
  [.created (formatDate r.creationTimestamp).display
    (if (dateOfTimestamp r.creationTimestamp).year < 2000 then true else false)]

/-- The source section (source lines 157-189). -/
def sourceSect (r : Recipe) : List Sect :=
  if r.sourceName.truthy || r.sourceUrl.truthy then
    if r.sourceName.truthy && r.sourceUrl.truthy then
      [.source (.linked r.sourceName.asStr r.sourceUrl.asStr)]
    else
      (if r.sourceName.truthy then [.source (.nameOnly r.sourceName.asStr)] else []) ++
      (if r.sourceUrl.truthy then [.source (.urlOnly r.sourceUrl.asStr)] else [])
  else []

/-- The servings section (source lines 192-196), present when the servings
field is truthy. -/
def servingsSect (r : Recipe) : List Sect :=
  if r.servings.truthy then [.servings r.servings] else []

/-- The rating section (source lines 199-208), always present: the value when
the rating field is truthy, the no-rating sentinel otherwise. -/
def ratingSect (r : Recipe) : List Sect :=
  if r.rating.truthy then [.rating (some r.rating)] else [.rating none]

/-- The time line (source lines 211-217): present when either duration is
truthy, holding one entry per truthy duration, converted to minutes by
dividing by sixty. -/
def timesSect (r : Recipe) : List Sect :=
  if r.prepTime.truthy || r.cookTime.truthy then
    [.times ((if r.prepTime.truthy then [TimeEntry.prep (r.prepTime.asNum / 60)] else []) ++
      (if r.cookTime.truthy then [TimeEntry.cook (r.cookTime.asNum / 60)] else []))]
  else []

/-- The categories section (source lines 220-223). -/
def categoriesSect (r : Recipe) : List Sect :=
  if r.categories.isEmpty then [] else [.categories r.categories]

/-- The early notes section (source lines 226-230), gated on the notes field
alone and showing the notes field. -/
def notesEarlySect (r : Recipe) : List Sect :=
  if r.notes.truthy then [.notes r.notes.asStr] else []

/-- The ingredients section (source lines 235-243), always present, one item
per raw ingredient. -/
def ingredientsSect (r : Recipe) : List Sect := [.ingredients r.ingredients]

/-- The numbered instruction lines (source lines 252-256): split on newline,
drop entries blank after trimming, number the rest from one and trim each. -/
def numberedLines (s : Str) : List (Nat × Str) :=
  ((s.splitOn '\n').filter fun t => jsTrim t != []).enum.map fun p =>
    (p.1 + 1, jsTrim p.2)

/-- The instructions section (source lines 246-257). -/
def instructionsSect (r : Recipe) : List Sect :=
  if r.instructions.truthy then
    [.instructions (numberedLines r.instructions.asStr)] else []

/-- The preparation steps loop (source lines 265-280), carrying the running
step number, which only non-hash entries consume. -/
def prepStepsGo (n : Nat) : List Str → List StepLine
  | [] => []
  | s :: rest =>
    let t := jsTrim s
    if t.head? = some '#' then .heading (jsTrim (t.drop 1)) :: prepStepsGo n rest
    else .numbered n t :: prepStepsGo (n + 1) rest

/-- The rendered preparation step lines, numbering from one. -/
def renderPrepSteps (steps : List Str) : List StepLine := prepStepsGo 1 steps

/-- The preparation steps section (source lines 260-281). -/
def prepSect (r : Recipe) : List Sect :=
  if r.preparationSteps.isEmpty then [] else
    [.prepSteps (renderPrepSteps r.preparationSteps)]

/-- The late notes section (source lines 284-290), gated on note or notes and
preferring note. -/
def notesLateSect (r : Recipe) : List Sect :=
  if r.note.truthy || r.notes.truthy then
    [.notes (r.note.orElse r.notes).asStr] else []

/-- The nutritional information section (source lines 293-304): the field
split on newline, each line verbatim. -/
def nutritionSect (r : Recipe) : List Sect :=
  if r.nutritionalInfo.truthy then
    [.nutrition (r.nutritionalInfo.asStr.splitOn '\n')] else []

/-- The full rendered document of one recipe: the sections in the emission
order of the source (source lines 114-304). -/
def render (imgRes : Str → Option (ℚ × ℚ)) (r : Recipe) : List Sect :=
  titleSect r ++ imageSect imgRes r ++ createdSect r ++ sourceSect r ++
  servingsSect r ++ ratingSect r ++ timesSect r ++ categoriesSect r ++
  notesEarlySect r ++ ingredientsSect r ++ instructionsSect r ++
  prepSect r ++ notesLateSect r ++ nutritionSect r

/-! ## Selecting sections by kind -/

theorem filter_kind_of_all (l : List Sect) (kc k : SKind)
    (h : ∀ s ∈ l, s.kind = kc) :
    (l.filter fun s => decide (s.kind = k)) = if k = kc then l else [] := by
  split
  · next he =>
    subst he
    rw [List.filter_eq_self]
    intro s hs
    simp [h s hs]
  · next he =>
    rw [List.filter_eq_nil_iff]
    intro s hs
    simp [h s hs]
    intro e
    exact he e.symm

theorem kind_titleSect (r : Recipe) : ∀ s ∈ titleSect r, s.kind = .title := by
  intro s hs
  simp [titleSect] at hs
  subst hs
  rfl

theorem kind_imageSect (imgRes : Str → Option (ℚ × ℚ)) (r : Recipe) :
    ∀ s ∈ imageSect imgRes r, s.kind = .image := by
  intro s hs
  unfold imageSect at hs
  split at hs
  · simp at hs
  · split at hs
    · simp at hs
      subst hs
      rfl
    · simp at hs

theorem kind_createdSect (r : Recipe) : ∀ s ∈ createdSect r, s.kind = .created := by
  intro s hs
  simp [createdSect] at hs
  subst hs
  rfl

theorem kind_sourceSect (r : Recipe) : ∀ s ∈ sourceSect r, s.kind = .source := by
  intro s hs
  unfold sourceSect at hs
  split at hs
  · split at hs
    · simp at hs
      subst hs
      rfl
    · rw [List.mem_append] at hs
      rcases hs with hs | hs <;>
        (split at hs <;> simp at hs) <;> (subst hs; rfl)
  · simp at hs

theorem kind_servingsSect (r : Recipe) : ∀ s ∈ servingsSect r, s.kind = .servings := by
  intro s hs
  unfold servingsSect at hs
  split at hs <;> simp at hs
  subst hs
  rfl

theorem kind_ratingSect (r : Recipe) : ∀ s ∈ ratingSect r, s.kind = .rating := by
  intro s hs
  unfold ratingSect at hs
  split at hs <;> simp at hs <;> (subst hs; rfl)

theorem kind_timesSect (r : Recipe) : ∀ s ∈ timesSect r, s.kind = .times := by
  intro s hs
  unfold timesSect at hs
  split at hs <;> simp at hs
  subst hs
  rfl

theorem kind_categoriesSect (r : Recipe) :
    ∀ s ∈ categoriesSect r, s.kind = .categories := by
  intro s hs
  unfold categoriesSect at hs
  split at hs <;> simp at hs
  subst hs
  rfl

theorem kind_notesEarlySect (r : Recipe) : ∀ s ∈ notesEarlySect r, s.kind = .notes := by
  intro s hs
  unfold notesEarlySect at hs
  split at hs <;> simp at hs
  subst hs
  rfl

theorem kind_ingredientsSect (r : Recipe) :
    ∀ s ∈ ingredientsSect r, s.kind = .ingredients := by
  intro s hs
  simp [ingredientsSect] at hs
  subst hs
  rfl

theorem kind_instructionsSect (r : Recipe) :
    ∀ s ∈ instructionsSect r, s.kind = .instructions := by
  intro s hs
  unfold instructionsSect at hs
  split at hs <;> simp at hs
  subst hs
  rfl

theorem kind_prepSect (r : Recipe) : ∀ s ∈ prepSect r, s.kind = .prepSteps := by
  intro s hs
  unfold prepSect at hs
  split at hs <;> simp at hs
  subst hs
  rfl

theorem kind_notesLateSect (r : Recipe) : ∀ s ∈ notesLateSect r, s.kind = .notes := by
  intro s hs
  unfold notesLateSect at hs
  split at hs <;> simp at hs
  subst hs
  rfl

theorem kind_nutritionSect (r : Recipe) : ∀ s ∈ nutritionSect r, s.kind = .nutrition := by
  intro s hs
  unfold nutritionSect at hs
  split at hs <;> simp at hs
  subst hs
  rfl

/-- The sections of a given kind in a rendered document are exactly the
output of the section emitters of that kind, in document order. -/
theorem sectsOfKind_render (imgRes : Str → Option (ℚ × ℚ)) (r : Recipe) (k : SKind) :
    sectsOfKind k (render imgRes r) =
      (if k = .title then titleSect r else []) ++
      (if k = .image then imageSect imgRes r else []) ++
      (if k = .created then createdSect r else []) ++
      (if k = .source then sourceSect r else []) ++
      (if k = .servings then servingsSect r else []) ++
      (if k = .rating then ratingSect r else []) ++
      (if k = .times then timesSect r else []) ++
      (if k = .categories then categoriesSect r else []) ++
      (if k = .notes then notesEarlySect r else []) ++
      (if k = .ingredients then ingredientsSect r else []) ++
      (if k = .instructions then instructionsSect r else []) ++
      (if k = .prepSteps then prepSect r else []) ++
      (if k = .notes then notesLateSect r else []) ++
      (if k = .nutrition then nutritionSect r else []) := by
  unfold sectsOfKind render
  simp only [List.filter_append]
  rw [filter_kind_of_all _ _ _ (kind_titleSect r),
    filter_kind_of_all _ _ _ (kind_imageSect imgRes r),
    filter_kind_of_all _ _ _ (kind_createdSect r),
    filter_kind_of_all _ _ _ (kind_sourceSect r),
    filter_kind_of_all _ _ _ (kind_servingsSect r),
    filter_kind_of_all _ _ _ (kind_ratingSect r),
    filter_kind_of_all _ _ _ (kind_timesSect r),
    filter_kind_of_all _ _ _ (kind_categoriesSect r),
    filter_kind_of_all _ _ _ (kind_notesEarlySect r),
    filter_kind_of_all _ _ _ (kind_ingredientsSect r),
    filter_kind_of_all _ _ _ (kind_instructionsSect r),
    filter_kind_of_all _ _ _ (kind_prepSect r),
    filter_kind_of_all _ _ _ (kind_notesLateSect r),
    filter_kind_of_all _ _ _ (kind_nutritionSect r)]

/-- C2: when both note and notes are truthy, the rendered document holds
exactly two notes sections: the early one shows the notes field and the late
one shows the note field, since the late gate prefers note over notes. -/
theorem notes_sections_spec (imgRes : Str → Option (ℚ × ℚ)) (r : Recipe)
    (hn : r.note.truthy = true) (hs : r.notes.truthy = true) :
    sectsOfKind .notes (render imgRes r) =
      [.notes r.notes.asStr, .notes r.note.asStr] := by
  rw [sectsOfKind_render]
  simp only [reduceCtorEq, if_false, if_true, List.nil_append, List.append_nil,
    reduceIte]
  rw [notesEarlySect, notesLateSect, JSVal.orElse]
  simp [hn, hs]

/-- Witness for C2: the concrete recipe with note A and notes B renders the
early notes section with B and the late one with A. -/
theorem notes_sections_spec_witness :
    sectsOfKind .notes
      (render (fun _ => none) { note := .text ['A'], notes := .text ['B'] }) =
      [.notes ['B'], .notes ['A']] := by
  have h := notes_sections_spec (fun _ => none)
    { note := .text ['A'], notes := .text ['B'] } (by decide) (by decide)
  simpa using h

/-- C9: the conditional sections are gated on truthiness, not presence: a
present rating of zero falls to the no-rating branch; servings of zero or
the empty string drops the servings section; a prep time of zero seconds is
left out of the time line (so only a truthy cook time appears, and nothing
appears when both are zero); and empty string notes (with the note alias
also falsy), instructions and nutritional info drop their sections. -/
theorem truthiness_gating (imgRes : Str → Option (ℚ × ℚ)) (r : Recipe) :
    (r.rating = .num 0 → sectsOfKind .rating (render imgRes r) = [.rating none]) ∧
    ((r.servings = .num 0 ∨ r.servings = .text []) →
      sectsOfKind .servings (render imgRes r) = []) ∧
    ((r.prepTime = .num 0 ∨ r.prepTime = .undefined) → r.cookTime.truthy = true →
      sectsOfKind .times (render imgRes r) =
        [.times [.cook (r.cookTime.asNum / 60)]]) ∧
    (r.prepTime = .num 0 → r.cookTime = .num 0 →
      sectsOfKind .times (render imgRes r) = []) ∧
    (r.notes = .text [] → (r.note = .text [] ∨ r.note = .undefined) →
      sectsOfKind .notes (render imgRes r) = []) ∧
    (r.instructions = .text [] →
      sectsOfKind .instructions (render imgRes r) = []) ∧
    (r.nutritionalInfo = .text [] →
      sectsOfKind .nutrition (render imgRes r) = []) := by
  refine ⟨?_, ?_, ?_, ?_, ?_, ?_, ?_⟩
  · intro h
    rw [sectsOfKind_render]
    simp only [reduceCtorEq, if_false, if_true, List.nil_append, List.append_nil, reduceIte]
    rw [ratingSect, h]
    simp [JSVal.truthy]
  · intro h
    rw [sectsOfKind_render]
    simp only [reduceCtorEq, if_false, if_true, List.nil_append, List.append_nil, reduceIte]
    rw [servingsSect]
    rcases h with h | h <;> rw [h] <;> simp [JSVal.truthy]
  · intro hp hc
    rw [sectsOfKind_render]
    simp only [reduceCtorEq, if_false, if_true, List.nil_append, List.append_nil, reduceIte]
    rw [timesSect]
    have hpf : r.prepTime.truthy = false := by
      rcases hp with h | h <;> rw [h] <;> simp [JSVal.truthy]
    rw [hpf, hc]
    simp
  · intro hp hc
    rw [sectsOfKind_render]
    simp only [reduceCtorEq, if_false, if_true, List.nil_append, List.append_nil, reduceIte]
    rw [timesSect, hp, hc]
    simp [JSVal.truthy]
  · intro hns hn
    rw [sectsOfKind_render]
    simp only [reduceCtorEq, if_false, if_true, List.nil_append, List.append_nil, reduceIte]
    rw [notesEarlySect, notesLateSect, hns]
    have hnf : r.note.truthy = false := by
      rcases hn with h | h <;> rw [h] <;> simp [JSVal.truthy]
    rw [hnf]
    simp [JSVal.truthy]
  · intro h
    rw [sectsOfKind_render]
    simp only [reduceCtorEq, if_false, if_true, List.nil_append, List.append_nil, reduceIte]
    rw [instructionsSect, h]
    simp [JSVal.truthy]
  · intro h
    rw [sectsOfKind_render]
    simp only [reduceCtorEq, if_false, if_true, List.nil_append, List.append_nil, reduceIte]
    rw [nutritionSect, h]
    simp [JSVal.truthy]

/-- Witness for C9: a concrete recipe with rating zero, servings zero, prep
time zero, cook time 1800 seconds, empty notes, empty instructions and empty
nutrition renders the no-rating sentinel, no servings, a cook-only time line
of thirty minutes, and no notes, instructions or nutrition sections. -/
theorem truthiness_gating_witness :
    sectsOfKind .rating (render (fun _ => none)
      { rating := .num 0, servings := .num 0, prepTime := .num 0,
        cookTime := .num 1800, notes := .text [], instructions := .text [],
        nutritionalInfo := .text [] }) = [.rating none] ∧
    sectsOfKind .servings (render (fun _ => none)
      { rating := .num 0, servings := .num 0, prepTime := .num 0,
        cookTime := .num 1800, notes := .text [], instructions := .text [],
        nutritionalInfo := .text [] }) = [] ∧
    sectsOfKind .times (render (fun _ => none)
      { rating := .num 0, servings := .num 0, prepTime := .num 0,
        cookTime := .num 1800, notes := .text [], instructions := .text [],
        nutritionalInfo := .text [] }) = [.times [.cook 30]] ∧
    sectsOfKind .notes (render (fun _ => none)
      { rating := .num 0, servings := .num 0, prepTime := .num 0,
        cookTime := .num 1800, notes := .text [], instructions := .text [],
        nutritionalInfo := .text [] }) = [] ∧
    sectsOfKind .instructions (render (fun _ => none)
      { rating := .num 0, servings := .num 0, prepTime := .num 0,
        cookTime := .num 1800, notes := .text [], instructions := .text [],
        nutritionalInfo := .text [] }) = [] ∧
    sectsOfKind .nutrition (render (fun _ => none)
      { rating := .num 0, servings := .num 0, prepTime := .num 0,
        cookTime := .num 1800, notes := .text [], instructions := .text [],
        nutritionalInfo := .text [] }) = [] := by
  have h := truthiness_gating (fun _ => none)
    { rating := .num 0, servings := .num 0, prepTime := .num 0,
      cookTime := .num 1800, notes := .text [], instructions := .text [],
      nutritionalInfo := .text [] }
  refine ⟨h.1 rfl, h.2.1 (Or.inl rfl), ?_, h.2.2.2.2.1 rfl (Or.inr rfl),
    h.2.2.2.2.2.1 rfl, h.2.2.2.2.2.2 rfl⟩
  have ht := h.2.2.1 (Or.inl rfl) (by decide)
  rw [ht]
  norm_num [JSVal.asNum]

/-! ## Preparation step numbering (C7) -/

/-- Shift the number of a numbered step line by one; headings are unchanged. -/
def bumpStep : StepLine → StepLine
  | .heading t => .heading t
  | .numbered n t => .numbered (n + 1) t

/-- Modelled from the spec words for the preparation steps block: each entry
is trimmed; a hash entry becomes an un-numbered heading with the hash
stripped and trimmed again; any other entry is numbered, and a step's number
is one more than the count of earlier non-hash entries — expressed here by
giving the first non-hash entry the number one and bumping the numbering of
everything after it, so hash entries consume no number. -/
def prepStepsSpec : List Str → List StepLine
  | [] => []
  | s :: rest =>
    if (jsTrim s).head? = some '#' then
      .heading (jsTrim ((jsTrim s).drop 1)) :: prepStepsSpec rest
    else
      .numbered 1 (jsTrim s) :: (prepStepsSpec rest).map bumpStep

theorem prepStepsGo_succ (steps : List Str) :
    ∀ n, prepStepsGo (n + 1) steps = (prepStepsGo n steps).map bumpStep := by
  induction steps with
  | nil => intro n; rfl
  | cons s rest ih =>
    intro n
    rw [prepStepsGo, prepStepsGo]
    split
    · rw [List.map_cons, ih n]
      rfl
    · rw [List.map_cons, ih (n + 1)]
      rfl

/-- C7: the rendered preparation steps agree with the specification reading
for every list of entries — trimmed entries, hash entries as un-numbered
headings with the hash stripped, and the counter consumed only by non-hash
entries — and on the concrete example the heading is un-numbered while the
following steps are numbered one and two. -/
theorem renderPrepSteps_spec :
    (∀ steps : List Str, renderPrepSteps steps = prepStepsSpec steps) ∧
    renderPrepSteps
      [['#', ' ', 'H', 'e', 'a', 'd', 'i', 'n', 'g'], ['D', 'o', ' ', 'X'],
       ['D', 'o', ' ', 'Y']] =
      [.heading ['H', 'e', 'a', 'd', 'i', 'n', 'g'],
       .numbered 1 ['D', 'o', ' ', 'X'], .numbered 2 ['D', 'o', ' ', 'Y']] := by
  constructor
  · intro steps
    unfold renderPrepSteps
    induction steps with
    | nil => rfl
    | cons s rest ih =>
      rw [prepStepsGo, prepStepsSpec]
      split
      · rw [ih]
      · rw [prepStepsGo_succ rest 1, ih]
  · decide

/-! ## The export orchestrator (source lines 51-323) -/

/-- The two configuration constants of the orchestrator (source lines 61-63):
whether documents are generated and the maximum count, minus one meaning
unlimited. -/
structure Config where
  generatePDF : Bool
  maxPDFsToGenerate : Int
deriving DecidableEq

/-- JavaScript slice with start zero (source line 81): a negative end counts
from the end of the list, a non-negative end takes that many elements,
clamped to the list in both cases. -/
def jsSliceEnd {α : Type} (e : Int) (l : List α) : List α :=
  if e < 0 then l.take ((l.length : Int) + e).toNat else l.take e.toNat

/-- The recipe selection of the orchestrator (source line 81): all recipes
when the configured maximum is exactly minus one, and slice from zero to the
maximum otherwise. -/
def selectRecipes {α : Type} (maxN : Int) (recipes : List α) : List α :=
  if maxN = -1 then recipes else jsSliceEnd maxN recipes

/-- An observable step of the batch run: the directory creation, the
per-recipe log lines and the rendered documents. -/
inductive Event where
  | createdDir : Event
  | imageErrorLog : Str → Event
  | docRendered : Str → List Sect → Event
  | pdfCreatedLog : Str → Event
  | pdfFailedLog : Str → Event
deriving DecidableEq

/-- The fault a single recipe's rendering can encounter, by the channel on
which it surfaces: no fault; a stream write error, which the stream error
handler (source line 107) turns into a rejection of the awaited promise; or
an error thrown synchronously inside the async promise executor (a malformed
field, for example an undefined ingredients list at source line 239). -/
inductive RenderFault where
  | ok : RenderFault
  | streamWrite : RenderFault
  | executorThrow : RenderFault
deriving DecidableEq

/-- Whether the image fetch of a recipe's first photo fails (the oracle
returns no decoded image for its url). -/
def imageFetchFails (imgRes : Str → Option (ℚ × ℚ)) (r : Recipe) : Bool :=
  match r.photoIds with
  | [] => false
  | pid :: _ => (imgRes (photoUrl pid)).isNone

/-- One iteration of the per-recipe loop (source lines 82-314).  With no
fault the document is rendered and the created line logged; a failed image
fetch is caught by the inner catch (source lines 145-147), which logs it with
the recipe name and only skips the image.  A stream write error invokes
reject (source line 107), the await throws, and the catch at source line 311
logs the failure with the recipe name; the loop continues.  An error thrown
inside the async promise executor, however, rejects only the async
callback's own discarded promise: the awaited promise never settles, the
await at source line 90 blocks forever, the catch at line 311 is never
reached, and the loop never advances — modelled as no event list at all. -/
def processRecipe (imgRes : Str → Option (ℚ × ℚ)) (fault : Recipe → RenderFault)
    (r : Recipe) : Option (List Event) :=
  match fault r with
  | .executorThrow => none
  | .streamWrite => some [.pdfFailedLog r.name]
  | .ok => some ((if imageFetchFails imgRes r then [Event.imageErrorLog r.name] else []) ++
      [.docRendered r.name (render imgRes r), .pdfCreatedLog r.name])

/-- The per-recipe loop: events of each recipe in order, and whether the loop
ran to completion (false when an executor throw stalled it). -/
def processLoop (imgRes : Str → Option (ℚ × ℚ)) (fault : Recipe → RenderFault) :
    List Recipe → List Event × Bool
  | [] => ([], true)
  | r :: rest =>
    match processRecipe imgRes fault r with
    | none => ([], false)
    | some evs =>
      let p := processLoop imgRes fault rest
      (evs ++ p.1, p.2)

/-- The observable outcome of a whole run of the orchestrator. -/
structure RunOutcome where
  archive : Option (List Recipe)
  events : List Event
  completed : Bool
  fatalError : Bool
  summaryCount : Option Nat
deriving DecidableEq

/-- Modelled from the spec for the file sink collaborator: a write of the
archive path recipe-pdfs/all-recipes.json succeeds exactly when the
recipe-pdfs directory already exists, and a FileSinkError on the archive
write is fatal. -/
def archiveWriteOk (dirExists : Bool) : Bool := dirExists

/-- Embedding of downloadRecipes (source lines 51-321), in source order: the
archive write (line 73) happens first; only then, and only when document
generation is enabled, the output directory is created (line 78), the
selection is taken (line 81) and the loop runs (lines 82-314); finally the
summary count of the full sequence is logged (line 317).  A failed archive
write rejects the promise of downloadRecipes, the top level catch (line 323)
prints it, and nothing after line 73 runs. -/
def downloadRecipes (cfg : Config) (imgRes : Str → Option (ℚ × ℚ))
    (fault : Recipe → RenderFault) (recipes : List Recipe) (dirExists : Bool) :
    RunOutcome :=
  if archiveWriteOk dirExists then
    let p := if cfg.generatePDF then
        processLoop imgRes fault (selectRecipes cfg.maxPDFsToGenerate recipes)
      else ([], true)
    { archive := some recipes
    , events := (if cfg.generatePDF then [Event.createdDir] else []) ++ p.1
    , completed := p.2
    , fatalError := false
    , summaryCount := if p.2 then some recipes.length else none }
  else
    { archive := none, events := [], completed := false, fatalError := true,
      summaryCount := none }

/-- Whether an event is a rendered document. -/
def isDocRendered : Event → Bool
  | .docRendered _ _ => true
  | _ => false

/-! ## Claim C3: the selection of recipes by the configured limit -/

/-- Counterexample to C3 as stated: the limit zero is non-positive, so the
claim says all recipes are rendered, but the selection of the code is empty. -/
theorem selectRecipes_counterexample :
    selectRecipes 0 ([1, 2, 3] : List Nat) = [] ∧
    ¬ selectRecipes 0 ([1, 2, 3] : List Nat) = [1, 2, 3] := by
  decide

/-- C3 amended: a positive limit selects exactly the first limit many
recipes in order; the limit minus one selects all recipes; the limit zero
selects none. -/
theorem selectRecipes_spec {α : Type} (maxN : Int) (recipes : List α) :
    (0 < maxN → selectRecipes maxN recipes = recipes.take maxN.toNat) ∧
    (maxN = -1 → selectRecipes maxN recipes = recipes) ∧
    (maxN = 0 → selectRecipes maxN recipes = []) := by
  refine ⟨?_, ?_, ?_⟩
  · intro h
    unfold selectRecipes jsSliceEnd
    rw [if_neg (by omega), if_neg (by omega)]
  · intro h
    simp [selectRecipes, h]
  · intro h
    subst h
    rw [selectRecipes, if_neg (by omega), jsSliceEnd, if_neg (by omega)]
    simp

/-- Witness for the amended C3 at a concrete list: limit two takes the first
two, limit minus one takes all, limit zero takes none. -/
theorem selectRecipes_spec_witness :
    selectRecipes 2 ([10, 20, 30] : List Nat) = [10, 20] ∧
    selectRecipes (-1) ([10, 20, 30] : List Nat) = [10, 20, 30] ∧
    selectRecipes 0 ([10, 20, 30] : List Nat) = [] := by
  refine ⟨?_, (selectRecipes_spec (-1) [10, 20, 30]).2.1 rfl,
    (selectRecipes_spec 0 [10, 20, 30]).2.2 rfl⟩
  have h := (selectRecipes_spec 2 ([10, 20, 30] : List Nat)).1 (by omega)
  rw [h]
  decide

/-! ## Claim C4: the summary count and the truncated rendering -/

theorem processLoop_ok_spec (imgRes : Str → Option (ℚ × ℚ)) (l : List Recipe) :
    ((processLoop imgRes (fun _ => RenderFault.ok) l).1.filter isDocRendered =
      l.map fun r => Event.docRendered r.name (render imgRes r)) ∧
    (processLoop imgRes (fun _ => RenderFault.ok) l).2 = true := by
  induction l with
  | nil => exact ⟨rfl, rfl⟩
  | cons r rest ih =>
    rw [processLoop, processRecipe]
    constructor
    · show ((_ ++ (processLoop imgRes (fun _ => RenderFault.ok) rest).1).filter
        isDocRendered) = _
      rw [List.filter_append, ih.1, List.map_cons]
      split
      · rfl
      · rfl
    · exact ih.2

/-- C4: with the directory present and no render faults, the summary count is
the length of the full retrieved sequence whatever the limit; and with
generation enabled, the limit two and three retrieved recipes, exactly two
documents are rendered while the archive holds all three records. -/
theorem summary_full_count (cfg : Config) (imgRes : Str → Option (ℚ × ℚ))
    (recipes : List Recipe) :
    (downloadRecipes cfg imgRes (fun _ => RenderFault.ok) recipes true).summaryCount =
      some recipes.length ∧
    (cfg.generatePDF = true → cfg.maxPDFsToGenerate = 2 → recipes.length = 3 →
      ((downloadRecipes cfg imgRes (fun _ => RenderFault.ok) recipes true).events.filter
        isDocRendered).length = 2 ∧
      (downloadRecipes cfg imgRes (fun _ => RenderFault.ok) recipes true).archive =
        some recipes) := by
  have hloop := processLoop_ok_spec imgRes
    (selectRecipes cfg.maxPDFsToGenerate recipes)
  have harch : archiveWriteOk true = true := rfl
  constructor
  · by_cases hg : cfg.generatePDF = true
    · simp [downloadRecipes, harch, hg, hloop.2]
    · simp only [Bool.not_eq_true] at hg
      simp [downloadRecipes, harch, hg]
  · intro hg hm hlen
    have hsel : selectRecipes cfg.maxPDFsToGenerate recipes =
        recipes.take 2 := by
      rw [hm, selectRecipes, if_neg (by omega), jsSliceEnd, if_neg (by omega)]
      rfl
    rw [hsel] at hloop
    constructor
    · simp [downloadRecipes, harch, hg, hsel, List.filter_append, hloop.1,
        isDocRendered, List.length_take, hlen]
    · simp [downloadRecipes, harch, hg]

/-- Witness for C4: three concrete recipes with limit two give summary count
three, two rendered documents, and an archive of all three records. -/
theorem summary_full_count_witness :
    (downloadRecipes ⟨true, 2⟩ (fun _ => none) (fun _ => RenderFault.ok)
      [{ name := ['a'] }, { name := ['b'] }, { name := ['c'] }] true).summaryCount =
      some 3 ∧
    ((downloadRecipes ⟨true, 2⟩ (fun _ => none) (fun _ => RenderFault.ok)
      [{ name := ['a'] }, { name := ['b'] }, { name := ['c'] }] true).events.filter
        isDocRendered).length = 2 ∧
    (downloadRecipes ⟨true, 2⟩ (fun _ => none) (fun _ => RenderFault.ok)
      [{ name := ['a'] }, { name := ['b'] }, { name := ['c'] }] true).archive =
      some [{ name := ['a'] }, { name := ['b'] }, { name := ['c'] }] := by
  have h := summary_full_count ⟨true, 2⟩ (fun _ => none)
    [{ name := ['a'] }, { name := ['b'] }, { name := ['c'] }]
  exact ⟨h.1, (h.2 rfl rfl rfl).1, (h.2 rfl rfl rfl).2⟩

/-! ## Claim C10: the archive write precedes the directory creation -/

/-- C10: the archive write (source line 73) runs before the directory
creation (line 78): on a run with no pre-existing output directory the
archive write fails, the run aborts fatally with no archive, no events and
no rendered document; and the recursive directory creation runs only when
generation is enabled, so a disabled run never creates the directory. -/
theorem archive_write_order (cfg : Config) (imgRes : Str → Option (ℚ × ℚ))
    (fault : Recipe → RenderFault) (recipes : List Recipe) :
    ((downloadRecipes cfg imgRes fault recipes false).fatalError = true ∧
     (downloadRecipes cfg imgRes fault recipes false).archive = none ∧
     (downloadRecipes cfg imgRes fault recipes false).events = [] ∧
     (downloadRecipes cfg imgRes fault recipes false).summaryCount = none) ∧
    (cfg.generatePDF = false →
      Event.createdDir ∉ (downloadRecipes cfg imgRes fault recipes true).events) := by
  constructor
  · rw [downloadRecipes]
    exact ⟨rfl, rfl, rfl, rfl⟩
  · intro h
    rw [downloadRecipes, if_pos (show archiveWriteOk true = true from rfl), h]
    simp

/-- Witness for C10: with generation disabled and the directory present, the
concrete run creates no directory; without the directory the run fails
fatally. -/
theorem archive_write_order_witness :
    (downloadRecipes ⟨false, 5⟩ (fun _ => none) (fun _ => RenderFault.ok) []
      false).fatalError = true ∧
    Event.createdDir ∉ (downloadRecipes ⟨false, 5⟩ (fun _ => none)
      (fun _ => RenderFault.ok) [] true).events :=
  ⟨(archive_write_order ⟨false, 5⟩ (fun _ => none) (fun _ => RenderFault.ok) []).1.1,
   (archive_write_order ⟨false, 5⟩ (fun _ => none) (fun _ => RenderFault.ok) []).2 rfl⟩

/-! ## Claim C1: error containment in the batch loop -/

/-- C1 at the failing input: a recipe whose render body throws inside the
async promise executor (here the first of two recipes) stalls the batch: the
run emits no per-recipe log at all — in particular no failure line with the
recipe's name — the second recipe is never processed, the loop never
completes and the summary is never logged, contradicting the claim that any
such error is logged with the recipe name and the loop proceeds. -/
theorem executor_throw_stalls_batch :
    (downloadRecipes ⟨true, -1⟩ (fun _ => none)
      (fun r => if r.name = ['X'] then RenderFault.executorThrow else .ok)
      [{ name := ['X'] }, { name := ['Y'] }] true).events = [Event.createdDir] ∧
    (downloadRecipes ⟨true, -1⟩ (fun _ => none)
      (fun r => if r.name = ['X'] then RenderFault.executorThrow else .ok)
      [{ name := ['X'] }, { name := ['Y'] }] true).completed = false ∧
    (downloadRecipes ⟨true, -1⟩ (fun _ => none)
      (fun r => if r.name = ['X'] then RenderFault.executorThrow else .ok)
      [{ name := ['X'] }, { name := ['Y'] }] true).summaryCount = none := by
  refine ⟨rfl, rfl, rfl⟩
